import Mathlib

/-!
Verification development for the kicad-llm-plugin repository.

The Python sources are shallowly embedded:
* Python strings are `List Char` (`Str`).
* Python dicts (used for `provider_api_keys`, `self.errors`, and the
  per-model results mapping) are insertion-ordered association lists with
  the usual dict semantics: setting an existing key replaces it in place,
  setting a fresh key appends, deleting filters the key out, lookup finds
  the (unique) matching entry.
* The file system seen by `ConfigManager` is a `FileState`; a read either
  yields a decoded configuration object or one of the failure modes the
  code catches (`absent` path, `IOError`, `json.JSONDecodeError`).
* The LLM client (`instructor` + provider) is an oracle
  `Str → Except Str AnalysisResult`: for each model id it either returns a
  parsed result or raises an exception with a message, covering both
  `LLMOperations` construction failures and `analyze_*` call failures.
-/

abbrev Str := List Char

/-- Python dict lookup `d.get(k)`: first entry with the matching key. -/
def dictGet {K V : Type} [DecidableEq K] (d : List (K × V)) (k : K) : Option V :=
  (d.find? (fun kv => kv.1 = k)).map (·.2)

/-- Python dict assignment `d[k] = v`: replace in place if the key is
present, else append (insertion order is preserved). -/
def dictSet {K V : Type} [DecidableEq K] (d : List (K × V)) (k : K) (v : V) :
    List (K × V) :=
  if d.any (fun kv => kv.1 = k) then
    d.map (fun kv => if kv.1 = k then (k, v) else kv)
  else
    d ++ [(k, v)]

/-- Python dict deletion `del d[k]`. -/
def dictDel {K V : Type} [DecidableEq K] (d : List (K × V)) (k : K) :
    List (K × V) :=
  d.filter (fun kv => kv.1 ≠ k)

/-- Python membership test `k in d`. -/
def dictHasKey {K V : Type} [DecidableEq K] (d : List (K × V)) (k : K) : Bool :=
  d.any (fun kv => kv.1 = k)

/-!
Embedding of `src/plugins/config.py` (`ConfigManager`).

The in-memory `self._config` dict always carries the three documented
fields (`selected_model`, `provider_api_keys`, `last_updated`); the
getters in the source read them with `.get(...)` defaults, which agree
with these fields whenever they are present.  The disk is a `FileState`;
`_save_config` stamps `last_updated` with the current time and then
attempts the write, swallowing an `IOError` (the disk is left unchanged
in that case, which is the divergence claim C8 is about).
-/

structure Config where
  selected_model : Str
  provider_api_keys : List (Str × Str)
  last_updated : Option Str
deriving DecidableEq

/-- Possible states of the configuration file as seen by `_load_config`:
the path may be absent, opening/reading it may raise `IOError`, its
bytes may fail to decode in the platform text encoding (the file's
`read()` inside `json.load` then raises `UnicodeDecodeError`, a
`ValueError` that is neither a `json.JSONDecodeError` nor an
`IOError`), its text may fail to parse as JSON, or it decodes to a
configuration object. -/
inductive FileState where
  | absent : FileState
  | unreadable : FileState
  | undecodable : FileState
  | malformed : FileState
  | valid : Config → FileState
deriving DecidableEq

/-- Default configuration returned by `_load_config` when the file is
absent or its read raises one of the caught exceptions (config.py lines
22-27). -/
def default_config : Config :=
  { selected_model := "openai/gpt-4o-mini".data
  , provider_api_keys := []
  , last_updated := none }

/-- Embedding of `ConfigManager._load_config`: a readable, well-formed
file yields its content; the failure modes the code catches (missing
file, `IOError`, `json.JSONDecodeError`) fall through to the default;
a file whose bytes fail text decoding makes `json.load` raise
`UnicodeDecodeError`, which `except (json.JSONDecodeError, IOError)`
does not catch, so the exception propagates out of the constructor
(modelled by the `Except.error` result). -/
def load_config (fs : FileState) : Except Str Config :=
  match fs with
  | .valid c => .ok c
  | .absent => .ok default_config
  | .unreadable => .ok default_config
  | .undecodable => .error "UnicodeDecodeError".data
  | .malformed => .ok default_config

/-- State of a `ConfigManager` instance together with the disk it writes
to. -/
structure CMState where
  config : Config
  disk : FileState
deriving DecidableEq

/-- Embedding of `ConfigManager.__init__`: load the config from the
file; an exception escaping `_load_config` escapes the constructor. -/
def cm_init (fs : FileState) : Except Str CMState :=
  (load_config fs).map (fun c => { config := c, disk := fs })

/-- The state of a `ConfigManager` constructed over an absent
configuration file (construction succeeds and loads the defaults). -/
def cm_absent : CMState :=
  { config := default_config, disk := FileState.absent }

/-- Embedding of `ConfigManager._save_config`: refresh `last_updated`
in memory with the current time `now`, then attempt the write; on
`IOError` (modelled by `writeOk = false`) the failure is printed and
swallowed and the disk keeps its previous state. -/
def save_config (st : CMState) (now : Str) (writeOk : Bool) : CMState :=
  let c := { st.config with last_updated := some now }
  { config := c
  , disk := if writeOk then .valid c else st.disk }

/-- Embedding of `ConfigManager.get_selected_model`. -/
def get_selected_model (st : CMState) : Str :=
  st.config.selected_model

/-- Embedding of `ConfigManager.set_selected_model`. -/
def set_selected_model (st : CMState) (model_name now : Str) (writeOk : Bool) :
    CMState :=
  save_config { st with config := { st.config with selected_model := model_name } }
    now writeOk

/-- Embedding of `ConfigManager._extract_provider_from_model`: the
substring of the model name before the first `/`, or the whole string if
there is no `/`. -/
def extract_provider_from_model (model_name : Str) : Str :=
  if '/' ∈ model_name then
    model_name.takeWhile (fun c => c ≠ '/')
  else
    model_name

/-- Embedding of `ConfigManager.get_api_key` on the in-memory config:
derive the provider from the model name, then look it up in
`provider_api_keys`. -/
def config_get_api_key (cfg : Config) (model_name : Str) : Option Str :=
  dictGet cfg.provider_api_keys (extract_provider_from_model model_name)

/-- Embedding of `ConfigManager.get_api_key`. -/
def get_api_key (st : CMState) (model_name : Str) : Option Str :=
  config_get_api_key st.config model_name

/-- Embedding of `ConfigManager.set_api_key_for_provider`. -/
def set_api_key_for_provider (st : CMState) (provider api_key now : Str)
    (writeOk : Bool) : CMState :=
  let keys := dictSet st.config.provider_api_keys provider api_key
  save_config { st with config := { st.config with provider_api_keys := keys } }
    now writeOk

/-- Embedding of `ConfigManager.remove_api_key_for_provider`: deletes
and saves only when the provider has a stored key, otherwise a no-op. -/
def remove_api_key_for_provider (st : CMState) (provider now : Str)
    (writeOk : Bool) : CMState :=
  if dictHasKey st.config.provider_api_keys provider then
    let keys := dictDel st.config.provider_api_keys provider
    save_config { st with config := { st.config with provider_api_keys := keys } }
      now writeOk
  else
    st

/-!
Embedding of `src/plugins/models.py`: the `FindingLevel` constants, the
`Finding` record (note: `level` is declared `str`, not an enumeration),
`TokenUsage` and `AnalysisResult`.  `response_time_seconds` is a Python
float used only as an opaque copied value, modelled exactly as `Rat`.
-/

namespace FindingLevel

def FATAL : Str := "Fatal".data
def MAJOR : Str := "Major".data
def MINOR : Str := "Minor".data
def BEST_PRACTICE : Str := "Best Practice".data
def NICE_TO_HAVE : Str := "Nice To Have".data

def ALL_LEVELS : List Str := [FATAL, MAJOR, MINOR, BEST_PRACTICE, NICE_TO_HAVE]

end FindingLevel

structure Finding where
  id : Int
  level : Str
  description : Str
  recommendation : Str
  reference : Str
deriving DecidableEq

structure TokenUsage where
  input_tokens : Int := 0
  output_tokens : Int := 0
  cache_creation_input_tokens : Int := 0
  cache_read_input_tokens : Int := 0
  total_tokens : Int := 0
  response_time_seconds : Rat := 0
deriving DecidableEq

structure AnalysisResult where
  findings : List Finding
  token_usage : TokenUsage
deriving DecidableEq

/-!
Embedding of the severity sort used by `MultiModelAnalyzer.save_to_html`
(analyze_models.py lines 183-193) and `gui.py`'s `sort_findings`
(identical priority table): `sorted(findings, key=lambda f:
level_priority.get(f.level, 99))`.  Python's `sorted` is a stable sort on
the priority key; it is embedded as a stable insertion sort
(`insert_by_level` places a finding before the first already-placed
finding of strictly greater priority, preserving the relative order of
findings whose keys are equal).
-/

/-- Priority table `level_priority` with the `.get(..., 99)` default for
unknown levels. -/
def level_priority (level : Str) : Nat :=
  if level = FindingLevel.FATAL then 0
  else if level = FindingLevel.MAJOR then 1
  else if level = FindingLevel.MINOR then 2
  else if level = FindingLevel.BEST_PRACTICE then 3
  else if level = FindingLevel.NICE_TO_HAVE then 4
  else 99

/-- Stable insertion step for the severity sort. -/
def insert_by_level (f : Finding) : List Finding → List Finding
  | [] => [f]
  | g :: gs =>
    if level_priority g.level < level_priority f.level then
      g :: insert_by_level f gs
    else
      f :: g :: gs

/-- Embedding of `sorted(findings, key=lambda f: level_priority.get(f.level, 99))`. -/
def sort_findings (findings : List Finding) : List Finding :=
  findings.foldr insert_by_level []

/-!
Embedding of `src/analyze_models.py` (`MultiModelAnalyzer`) and the
`AVAILABLE_MODELS` list from `src/plugins/gui.py`.

The LLM call (`LLMOperations(model_name, api_key)` construction followed
by `analyze_netlist` / `analyze_schematic_and_netlist`) is abstracted as
an oracle `llm : Str → Except Str AnalysisResult` giving, per model id,
either the parsed result or the text of the raised exception.  Writing
the per-model CSV/HTML files is a side effect that does not feed back
into the run; the comparison-summary CSV content is modelled by
`save_summary_csv` below, one structured row per entry of the results
dict, exactly the columns the source writes.
-/

def AVAILABLE_MODELS : List Str :=
  [ "openai/gpt-5.2".data
  , "openai/gpt-5-mini".data
  , "openai/gpt-5-nano".data
  , "openai/gpt-oss-120b".data
  , "openai/gpt-oss-20b".data
  , "google/gemini-3-flash-preview".data
  , "google/gemini-3-pro-preview".data
  , "google/gemini-2.5-flash-lite".data
  , "google/gemini-2.5-flash".data
  , "groq/llama-3.3-70b-versatile".data
  , "groq/meta-llama/llama-4-maverick-17b-128e-instruct".data
  , "groq/openai/gpt-oss-120b".data
  , "groq/openai/gpt-oss-20b".data ]

/-- Python truthiness of an optional string (`if api_key:`): `None` and
the empty string are falsy. -/
def is_truthy_key : Option Str → Bool
  | none => false
  | some k => decide (k ≠ [])

/-- State of a `MultiModelAnalyzer`: the in-memory config of its
`ConfigManager`, the optional `--models` restriction, and the per-model
error dict `self.errors`. -/
structure AnalyzerState where
  config : Config
  selected_models : Option (List Str)
  errors : List (Str × Str)
deriving DecidableEq

/-- Embedding of `MultiModelAnalyzer.get_available_models_with_keys`:
keep the candidates whose key is present (and truthy), restricted to the
selected subset when one was given. -/
def get_available_models_with_keys (st : AnalyzerState) : List Str :=
  AVAILABLE_MODELS.filter (fun m =>
    is_truthy_key (config_get_api_key st.config m) &&
      (match st.selected_models with
       | none => true
       | some sel => decide (m ∈ sel)))

/-- Embedding of `MultiModelAnalyzer.analyze_with_model`: a falsy key
records a missing-key error and returns `none`; otherwise the LLM call
either returns the result, or its exception text is recorded in
`self.errors` for that model and `none` is returned.  The function is
total: no exception escapes it. -/
def analyze_with_model (st : AnalyzerState)
    (llm : Str → Except Str AnalysisResult) (m : Str) :
    AnalyzerState × Option AnalysisResult :=
  if is_truthy_key (config_get_api_key st.config m) = false then
    ({ st with errors :=
        dictSet st.errors m ("No API key found for model ".data ++ m) }, none)
  else
    match llm m with
    | .ok r => (st, some r)
    | .error e => ({ st with errors := dictSet st.errors m e }, none)

/-- The per-model loop of `run_analysis`: run each model in order,
threading the analyzer state and building the insertion-ordered results
dict. -/
def run_models (llm : Str → Except Str AnalysisResult) :
    AnalyzerState → List Str → AnalyzerState × List (Str × Option AnalysisResult)
  | st, [] => (st, [])
  | st, m :: ms =>
    let p := analyze_with_model st llm m
    let rest := run_models llm p.1 ms
    (rest.1, (m, p.2) :: rest.2)

/-- Embedding of `MultiModelAnalyzer.run_analysis`: if no model has a
key the run aborts with an empty results dict (and no summary file);
otherwise every available model is run in sequence. -/
def run_analysis (st : AnalyzerState) (llm : Str → Except Str AnalysisResult) :
    AnalyzerState × List (Str × Option AnalysisResult) :=
  let available := get_available_models_with_keys st
  if available.isEmpty then (st, [])
  else run_models llm st available

/-- Count of findings at one severity level, as accumulated by the
`level_counts` loop in `save_summary_csv` (a finding whose level is not
a key of `level_counts` is not counted). -/
def count_level (findings : List Finding) (lev : Str) : Nat :=
  findings.countP (fun f => f.level = lev)

/-- One row of the model-comparison summary CSV, with the exact columns
written by `save_summary_csv` (Model, Status, Total_Findings, Fatal,
Major, Minor, Best_Practice, Nice_To_Have, Total_Tokens, Input_Tokens,
Output_Tokens, Response_Time_Seconds, Error). -/
structure SummaryRow where
  model : Str
  status : Str
  total_findings : Nat
  fatal : Nat
  major : Nat
  minor : Nat
  best_practice : Nat
  nice_to_have : Nat
  total_tokens : Int
  input_tokens : Int
  output_tokens : Int
  response_time_seconds : Rat
  error : Str
deriving DecidableEq

/-- Row written for one entry of the results dict: an absent result
yields an ERROR row with zero counts and the error text recorded for the
model (`self.errors.get(model_name, "Unknown error")`); a present result
yields a SUCCESS row with per-level counts and token usage. -/
def summary_row (errors : List (Str × Str)) (m : Str) :
    Option AnalysisResult → SummaryRow
  | none =>
    { model := m, status := "ERROR".data, total_findings := 0, fatal := 0
    , major := 0, minor := 0, best_practice := 0, nice_to_have := 0
    , total_tokens := 0, input_tokens := 0, output_tokens := 0
    , response_time_seconds := 0
    , error := (dictGet errors m).getD "Unknown error".data }
  | some r =>
    { model := m, status := "SUCCESS".data
    , total_findings := r.findings.length
    , fatal := count_level r.findings FindingLevel.FATAL
    , major := count_level r.findings FindingLevel.MAJOR
    , minor := count_level r.findings FindingLevel.MINOR
    , best_practice := count_level r.findings FindingLevel.BEST_PRACTICE
    , nice_to_have := count_level r.findings FindingLevel.NICE_TO_HAVE
    , total_tokens := r.token_usage.total_tokens
    , input_tokens := r.token_usage.input_tokens
    , output_tokens := r.token_usage.output_tokens
    , response_time_seconds := r.token_usage.response_time_seconds
    , error := [] }

/-- Embedding of `MultiModelAnalyzer.save_summary_csv`: one row per
entry of the results dict, in insertion order. -/
def save_summary_csv (errors : List (Str × Str))
    (results : List (Str × Option AnalysisResult)) : List SummaryRow :=
  results.map (fun p => summary_row errors p.1 p.2)

def finding_minor : Finding :=
  { id := 1, level := FindingLevel.MINOR, description := "d1".data
  , recommendation := "r1".data, reference := "U1".data }

def finding_fatal : Finding :=
  { id := 2, level := FindingLevel.FATAL, description := "d2".data
  , recommendation := "r2".data, reference := "U2".data }

def finding_nth : Finding :=
  { id := 3, level := FindingLevel.NICE_TO_HAVE, description := "d3".data
  , recommendation := "r3".data, reference := "U3".data }

def finding_major : Finding :=
  { id := 4, level := FindingLevel.MAJOR, description := "d4".data
  , recommendation := "r4".data, reference := "U4".data }

/-!
Embedding of pydantic validation of the `Findings` / `Finding` response
schema (`src/plugins/models.py`).  An LLM response decodes to a
`PyValue`; `validate_finding` checks exactly what the pydantic model
declares: `id` must be an integer and `level`, `description`,
`recommendation`, `reference` must be strings.  `level` is annotated
`str` (the five severity names appear only in the field's description
text), so no membership check against `FindingLevel.ALL_LEVELS` is
performed.
-/

inductive PyValue where
  | int : Int → PyValue
  | str : Str → PyValue
  | list : List PyValue → PyValue
  | dict : List (Str × PyValue) → PyValue

def as_int : Option PyValue → Option Int
  | some (.int n) => some n
  | _ => none

def as_str : Option PyValue → Option Str
  | some (.str s) => some s
  | _ => none

/-- Validation of one finding object against the `Finding` pydantic
model. -/
def validate_finding (v : PyValue) : Option Finding :=
  match v with
  | .dict kvs =>
    match as_int (dictGet kvs "id".data), as_str (dictGet kvs "level".data),
        as_str (dictGet kvs "description".data),
        as_str (dictGet kvs "recommendation".data),
        as_str (dictGet kvs "reference".data) with
    | some i, some lv, some d, some r, some ref =>
      some { id := i, level := lv, description := d, recommendation := r
           , reference := ref }
    | _, _, _, _, _ => none
  | _ => none

/-- Validation of a whole response against the `Findings` pydantic
model. -/
def validate_findings (v : PyValue) : Option (List Finding) :=
  match v with
  | .dict kvs =>
    match dictGet kvs "findings".data with
    | some (.list xs) => xs.mapM validate_finding
    | _ => none
  | _ => none

/-- A response object whose `level` is a string outside the five
enumerated severity names. -/
def bogus_level_obj : PyValue :=
  .dict [ ("id".data, .int 1)
        , ("level".data, .str "Catastrophic".data)
        , ("description".data, .str "d".data)
        , ("recommendation".data, .str "r".data)
        , ("reference".data, .str "U1".data) ]

def finding_bogus : Finding :=
  { id := 9, level := "Catastrophic".data, description := "d9".data
  , recommendation := "r9".data, reference := "U9".data }

/-!
Embedding of `MultiModelAnalyzer.save_to_csv` and the csv module's
default (excel) dialect at cell granularity.  `csv.writer` with
QUOTE_MINIMAL quotes a cell exactly when it contains the delimiter, the
quote char, or a line-terminator character, doubling embedded quotes;
`csv.reader` undoes this per cell.  `str(finding.id)` /
`int(...)` are the decimal representations.
-/

/-- QUOTE_MINIMAL test: a cell needs quoting when it contains the
delimiter, the quote character or a line-terminator character. -/
def needs_quoting (s : Str) : Bool :=
  s.any (fun c => c = ',' || c = '"' || c = '\n' || c = '\r')

/-- Double every embedded quote character. -/
def escape_quotes (s : Str) : Str :=
  s.flatMap (fun c => if c = '"' then ['"', '"'] else [c])

/-- Writer-side encoding of one cell. -/
def encode_field (s : Str) : Str :=
  if needs_quoting s then '"' :: (escape_quotes s ++ ['"']) else s

/-- Collapse doubled quote characters. -/
def unescape_quotes : Str → Str
  | [] => []
  | [c] => [c]
  | c :: d :: rest =>
    if c = '"' ∧ d = '"' then '"' :: unescape_quotes rest
    else c :: unescape_quotes (d :: rest)

/-- Reader-side decoding of one cell: strip surrounding quotes and
collapse doubled quotes; an unquoted cell is already its value. -/
def decode_field (s : Str) : Str :=
  match s with
  | [] => []
  | c :: rest => if c = '"' then unescape_quotes rest.dropLast else c :: rest

def digit_char (d : Nat) : Char :=
  match d with
  | 0 => '0' | 1 => '1' | 2 => '2' | 3 => '3' | 4 => '4'
  | 5 => '5' | 6 => '6' | 7 => '7' | 8 => '8' | _ => '9'

def char_digit (c : Char) : Nat :=
  match c with
  | '0' => 0 | '1' => 1 | '2' => 2 | '3' => 3 | '4' => 4
  | '5' => 5 | '6' => 6 | '7' => 7 | '8' => 8 | _ => 9

def is_digit_char (c : Char) : Bool :=
  decide (c ∈ ['0', '1', '2', '3', '4', '5', '6', '7', '8', '9'])

/-- Decimal representation of a natural number (Python `str`). -/
def nat_to_str (n : Nat) : Str :=
  if n = 0 then ['0'] else ((Nat.digits 10 n).reverse).map digit_char

/-- Parse a decimal natural number (Python `int` on a digit string). -/
def str_to_nat (s : Str) : Option Nat :=
  if s ≠ [] ∧ s.all is_digit_char then
    some (Nat.ofDigits 10 ((s.map char_digit).reverse))
  else none

/-- Decimal representation of an integer (Python `str`). -/
def int_to_str (i : Int) : Str :=
  if i < 0 then '-' :: nat_to_str i.natAbs else nat_to_str i.toNat

/-- Parse a decimal integer with optional leading minus (Python `int`). -/
def str_to_int (s : Str) : Option Int :=
  match s with
  | [] => none
  | c :: rest =>
    if c = '-' then (str_to_nat rest).map (fun n => -(n : Int))
    else (str_to_nat (c :: rest)).map (fun n => (n : Int))

def csv_header : List Str :=
  [ "ID".data, "Level".data, "Description".data, "Recommendation".data
  , "Reference".data ]

/-- Embedding of `save_to_csv`: the header row, then one row per finding
in input order; each cell is the csv-encoded string value of the field
(`str(finding.id)` for the id column). -/
def save_to_csv (findings : List Finding) : List (List Str) :=
  csv_header ::
    findings.map (fun f =>
      [ encode_field (int_to_str f.id), encode_field f.level
      , encode_field f.description, encode_field f.recommendation
      , encode_field f.reference ])

/-- Re-reading one data row: decode the five cells and parse the id back
to an integer. -/
def read_finding_row (row : List Str) : Option (Int × Str × Str × Str × Str) :=
  match row with
  | [i, lv, d, r, ref] =>
    (str_to_int (decode_field i)).map (fun n =>
      (n, decode_field lv, decode_field d, decode_field r, decode_field ref))
  | _ => none

/-- Re-reading the written file: skip the header row, decode every data
row. -/
def read_csv (rows : List (List Str)) :
    Option (List (Int × Str × Str × Str × Str)) :=
  (rows.drop 1).mapM read_finding_row

def c2_state : AnalyzerState :=
  { config := { selected_model := "openai/gpt-4o-mini".data
              , provider_api_keys := [("openai".data, "sk".data)]
              , last_updated := none }
  , selected_models := none
  , errors := [] }

def c2_llm : Str → Except Str AnalysisResult := fun _ => .error "boom".data

def cx_state : AnalyzerState :=
  { config := { selected_model := "openai/gpt-4o-mini".data
              , provider_api_keys := [("google".data, "gkey".data)]
              , last_updated := none }
  , selected_models := some [ "openai/gpt-5.2".data
                            , "google/gemini-2.5-flash".data ]
  , errors := [] }

def cx_llm : Str → Except Str AnalysisResult :=
  fun _ => .ok { findings := [], token_usage := {} }

/-! Theorems. -/
section DictLemmas

variable {K V : Type} [DecidableEq K]

theorem dictGet_cons_pos (p : K × V) (d : List (K × V)) (k : K) (h : p.1 = k) :
    dictGet (p :: d) k = some p.2 := by
  unfold dictGet
  rw [List.find?_cons_of_pos _ (by simpa using h)]
  rfl

theorem dictGet_cons_neg (p : K × V) (d : List (K × V)) (k : K) (h : ¬ p.1 = k) :
    dictGet (p :: d) k = dictGet d k := by
  unfold dictGet
  rw [List.find?_cons_of_neg _ (by simpa using h)]

theorem dictGet_map_replace (d : List (K × V)) (k : K) (v : V)
    (h : d.any (fun kv => kv.1 = k) = true) :
    dictGet (d.map (fun kv => if kv.1 = k then (k, v) else kv)) k = some v := by
  induction d with
  | nil => simp at h
  | cons p d ih =>
    by_cases hp : p.1 = k
    · rw [List.map_cons, if_pos hp, dictGet_cons_pos _ _ _ rfl]
    · have h' : d.any (fun kv => kv.1 = k) = true := by
        simpa [List.any_cons, hp] using h
      rw [List.map_cons, if_neg hp, dictGet_cons_neg _ _ _ hp]
      exact ih h'

theorem dictGet_append_fresh (d : List (K × V)) (k : K) (v : V)
    (h : d.any (fun kv => kv.1 = k) = false) :
    dictGet (d ++ [(k, v)]) k = some v := by
  induction d with
  | nil => exact dictGet_cons_pos _ _ _ rfl
  | cons p d ih =>
    have hp : ¬ p.1 = k := by
      intro hk
      simp [List.any_cons, hk] at h
    have h' : d.any (fun kv => kv.1 = k) = false := by
      simpa [List.any_cons, hp] using h
    rw [List.cons_append, dictGet_cons_neg _ _ _ hp]
    exact ih h'

theorem any_eq_false_of_not_true {d : List (K × V)} {k : K}
    (h : ¬ d.any (fun kv => kv.1 = k) = true) :
    d.any (fun kv => kv.1 = k) = false := by
  cases h2 : d.any (fun kv => kv.1 = k) with
  | false => rfl
  | true => exact absurd h2 h

theorem dictGet_set_self (d : List (K × V)) (k : K) (v : V) :
    dictGet (dictSet d k v) k = some v := by
  unfold dictSet
  by_cases h : d.any (fun kv => kv.1 = k) = true
  · rw [if_pos h]
    exact dictGet_map_replace d k v h
  · rw [if_neg h]
    exact dictGet_append_fresh d k v (any_eq_false_of_not_true h)

theorem dictGet_map_replace_other (d : List (K × V)) (k k' : K) (v : V)
    (hne : k' ≠ k) :
    dictGet (d.map (fun kv => if kv.1 = k then (k, v) else kv)) k' =
      dictGet d k' := by
  induction d with
  | nil => rfl
  | cons p d ih =>
    by_cases hp : p.1 = k
    · have h1 : ¬ (k = k') := fun hk => hne hk.symm
      have h2 : ¬ (p.1 = k') := fun hk => hne (hp ▸ hk : k = k').symm
      rw [List.map_cons, if_pos hp, dictGet_cons_neg _ _ _ h1,
        dictGet_cons_neg _ _ _ h2]
      exact ih
    · by_cases hp' : p.1 = k'
      · rw [List.map_cons, if_neg hp, dictGet_cons_pos _ _ _ hp',
          dictGet_cons_pos _ _ _ hp']
      · rw [List.map_cons, if_neg hp, dictGet_cons_neg _ _ _ hp',
          dictGet_cons_neg _ _ _ hp']
        exact ih

theorem dictGet_append_single_other (d : List (K × V)) (k k' : K) (v : V)
    (hne : k' ≠ k) :
    dictGet (d ++ [(k, v)]) k' = dictGet d k' := by
  induction d with
  | nil =>
    rw [List.nil_append, dictGet_cons_neg _ _ _ (fun hk => hne hk.symm)]
  | cons p d ih =>
    by_cases hp' : p.1 = k'
    · rw [List.cons_append, dictGet_cons_pos _ _ _ hp', dictGet_cons_pos _ _ _ hp']
    · rw [List.cons_append, dictGet_cons_neg _ _ _ hp', dictGet_cons_neg _ _ _ hp']
      exact ih

theorem dictGet_set_other (d : List (K × V)) (k k' : K) (v : V)
    (hne : k' ≠ k) :
    dictGet (dictSet d k v) k' = dictGet d k' := by
  unfold dictSet
  by_cases h : d.any (fun kv => kv.1 = k) = true
  · rw [if_pos h]
    exact dictGet_map_replace_other d k k' v hne
  · rw [if_neg h]
    exact dictGet_append_single_other d k k' v hne

theorem dictGet_del_self (d : List (K × V)) (k : K) :
    dictGet (dictDel d k) k = none := by
  induction d with
  | nil => rfl
  | cons p d ih =>
    by_cases hp : p.1 = k
    · unfold dictDel
      rw [List.filter_cons_of_neg (by simpa using hp)]
      exact ih
    · unfold dictDel
      rw [List.filter_cons_of_pos (by simpa using hp)]
      rw [dictGet_cons_neg _ _ _ hp]
      exact ih

theorem dictGet_del_other (d : List (K × V)) (k k' : K) (hne : k' ≠ k) :
    dictGet (dictDel d k) k' = dictGet d k' := by
  induction d with
  | nil => rfl
  | cons p d ih =>
    by_cases hp : p.1 = k
    · have hp' : ¬ p.1 = k' := fun h => hne (hp ▸ h : k = k').symm
      unfold dictDel
      rw [List.filter_cons_of_neg (by simpa using hp)]
      rw [dictGet_cons_neg _ _ _ hp']
      exact ih
    · unfold dictDel
      rw [List.filter_cons_of_pos (by simpa using hp)]
      by_cases hp' : p.1 = k'
      · rw [dictGet_cons_pos _ _ _ hp', dictGet_cons_pos _ _ _ hp']
      · rw [dictGet_cons_neg _ _ _ hp', dictGet_cons_neg _ _ _ hp']
        exact ih

end DictLemmas
theorem extract_provider_append (p x : Str) (hp : '/' ∉ p) :
    extract_provider_from_model (p ++ '/' :: x) = p := by
  unfold extract_provider_from_model
  rw [if_pos (by simp)]
  induction p with
  | nil => simp [List.takeWhile]
  | cons c p ih =>
    have hc : ¬ c = '/' := fun h => hp (h ▸ List.mem_cons_self c p)
    have hp' : '/' ∉ p := fun h => hp (List.mem_cons_of_mem c h)
    rw [List.cons_append, List.takeWhile_cons, if_pos (by simpa using hc)]
    rw [ih hp']

theorem dictHasKey_set_self {K V : Type} [DecidableEq K]
    (d : List (K × V)) (k : K) (v : V) :
    dictHasKey (dictSet d k v) k = true := by
  unfold dictHasKey dictSet
  by_cases h : d.any (fun kv => kv.1 = k) = true
  · rw [if_pos h]
    rw [List.any_eq_true] at h ⊢
    obtain ⟨x, hx, hpx⟩ := h
    refine ⟨(k, v), List.mem_map.mpr ⟨x, hx, ?_⟩, by simp⟩
    simp only [decide_eq_true_eq] at hpx
    simp [hpx]
  · rw [if_neg h]
    simp [List.any_append]

theorem dictGet_none_of_not_hasKey {K V : Type} [DecidableEq K]
    {d : List (K × V)} {k : K} (h : ¬ dictHasKey d k = true) :
    dictGet d k = none := by
  induction d with
  | nil => rfl
  | cons p d ih =>
    by_cases hp : p.1 = k
    · exact absurd (by simp [dictHasKey, List.any_cons, hp]) h
    · rw [dictGet_cons_neg _ _ _ hp]
      refine ih (fun h2 => h ?_)
      unfold dictHasKey at h2 ⊢
      simp [List.any_cons, h2]

theorem save_config_keys (st : CMState) (now : Str) (ok : Bool) :
    (save_config st now ok).config.provider_api_keys =
      st.config.provider_api_keys := rfl

theorem set_api_key_keys (st : CMState) (p v now : Str) (ok : Bool) :
    (set_api_key_for_provider st p v now ok).config.provider_api_keys =
      dictSet st.config.provider_api_keys p v := rfl

/-- Claim C3: after `set_api_key_for_provider p v`, `get_api_key` on any
model id of the form `p/x` (with `p` slash-free, so that the derived
provider is exactly `p`) returns `v`, and a later
`set_api_key_for_provider q w` or `remove_api_key_for_provider q` for a
different provider `q` leaves that result unchanged. -/
theorem config_provider_key_isolation
    (st : CMState) (p v x q w now1 now2 now3 : Str) (ok1 ok2 ok3 : Bool)
    (hp : '/' ∉ p) (hq : q ≠ p) :
    get_api_key (set_api_key_for_provider st p v now1 ok1) (p ++ '/' :: x)
        = some v
    ∧ get_api_key
        (set_api_key_for_provider (set_api_key_for_provider st p v now1 ok1)
          q w now2 ok2) (p ++ '/' :: x) = some v
    ∧ get_api_key
        (remove_api_key_for_provider (set_api_key_for_provider st p v now1 ok1)
          q now3 ok3) (p ++ '/' :: x) = some v := by
  have hpq : p ≠ q := fun h => hq h.symm
  unfold get_api_key config_get_api_key
  rw [extract_provider_append p x hp]
  refine ⟨?_, ?_, ?_⟩
  · rw [set_api_key_keys]
    exact dictGet_set_self _ _ _
  · rw [set_api_key_keys, set_api_key_keys]
    rw [dictGet_set_other _ _ _ _ hpq]
    exact dictGet_set_self _ _ _
  · unfold remove_api_key_for_provider
    by_cases h : dictHasKey
        (set_api_key_for_provider st p v now1 ok1).config.provider_api_keys q
        = true
    · rw [if_pos h, save_config_keys]
      show dictGet (dictDel _ q) p = some v
      rw [dictGet_del_other _ _ _ hpq, set_api_key_keys]
      exact dictGet_set_self _ _ _
    · rw [if_neg h, set_api_key_keys]
      exact dictGet_set_self _ _ _

/-- Witness for C3 at concrete inputs: provider "openai", key "sk-1",
model "openai/gpt-4o", other provider "google". -/
theorem config_provider_key_isolation_witness :
    get_api_key
      (set_api_key_for_provider cm_absent "openai".data "sk-1".data
        "t1".data true) ("openai".data ++ '/' :: "gpt-4o".data) =
      some "sk-1".data
    ∧ get_api_key
        (set_api_key_for_provider
          (set_api_key_for_provider cm_absent "openai".data "sk-1".data
            "t1".data true) "google".data "sk-2".data "t2".data true)
        ("openai".data ++ '/' :: "gpt-4o".data) = some "sk-1".data
    ∧ get_api_key
        (remove_api_key_for_provider
          (set_api_key_for_provider cm_absent "openai".data "sk-1".data
            "t1".data true) "google".data "t3".data true)
        ("openai".data ++ '/' :: "gpt-4o".data) = some "sk-1".data :=
  config_provider_key_isolation cm_absent "openai".data "sk-1".data
    "gpt-4o".data "google".data "sk-2".data "t1".data "t2".data "t3".data
    true true true (by decide) (by decide)

/-- Claim C4: storing an API key for provider `p` and then removing it
makes `get_api_key` on any model under provider `p` return `none`. -/
theorem config_set_then_remove_absent
    (st : CMState) (p v x now1 now2 : Str) (ok1 ok2 : Bool) (hp : '/' ∉ p) :
    get_api_key
      (remove_api_key_for_provider (set_api_key_for_provider st p v now1 ok1)
        p now2 ok2) (p ++ '/' :: x) = none := by
  unfold get_api_key config_get_api_key
  rw [extract_provider_append p x hp]
  unfold remove_api_key_for_provider
  have hk : dictHasKey
      (set_api_key_for_provider st p v now1 ok1).config.provider_api_keys p
      = true := by
    rw [set_api_key_keys]
    exact dictHasKey_set_self _ _ _
  rw [if_pos hk, save_config_keys]
  show dictGet (dictDel _ p) p = none
  exact dictGet_del_self _ _

/-- Witness for C4 at concrete inputs. -/
theorem config_set_then_remove_absent_witness :
    get_api_key
      (remove_api_key_for_provider
        (set_api_key_for_provider cm_absent "groq".data "sk-9".data
          "t1".data true) "groq".data "t2".data false)
      ("groq".data ++ '/' :: "llama-3.3-70b-versatile".data) = none :=
  config_set_then_remove_absent cm_absent "groq".data "sk-9".data
    "llama-3.3-70b-versatile".data "t1".data "t2".data true false (by decide)

/-- Counterexample to claim C5 as stated: the claim quantifies over
every on-disk state with malformed content, but a configuration file
whose bytes fail text decoding is such a state on which `json.load`
raises `UnicodeDecodeError` — not caught by
`except (json.JSONDecodeError, IOError)` — so constructing
`ConfigManager` raises instead of yielding the defaults. -/
theorem config_load_defaults_counterexample :
    load_config FileState.undecodable ≠ .ok default_config
    ∧ cm_init FileState.undecodable = .error "UnicodeDecodeError".data :=
  ⟨fun h => Except.noConfusion h, rfl⟩

/-- Claim C5 as amended: for an absent file, an unreadable file
(`IOError`), or a file whose text fails to parse as JSON
(`json.JSONDecodeError`), construction does not raise and the loaded
configuration is exactly the documented defaults (selected model
"openai/gpt-4o-mini", empty provider key mapping, null timestamp); but
a file whose bytes fail text decoding raises an uncaught
`UnicodeDecodeError` out of the constructor. -/
theorem config_load_defaults (fs : FileState)
    (h : fs = .absent ∨ fs = .unreadable ∨ fs = .malformed) :
    (load_config fs = .ok default_config
      ∧ cm_init fs = .ok { config := default_config, disk := fs }
      ∧ default_config.selected_model = "openai/gpt-4o-mini".data
      ∧ default_config.provider_api_keys = []
      ∧ default_config.last_updated = none)
    ∧ load_config FileState.undecodable = .error "UnicodeDecodeError".data := by
  rcases h with h | h | h <;> subst h <;>
    exact ⟨⟨rfl, rfl, rfl, rfl, rfl⟩, rfl⟩

/-- Witness for C5 at the malformed-JSON file state. -/
theorem config_load_defaults_witness :
    (load_config FileState.malformed = .ok default_config
      ∧ cm_init FileState.malformed
          = .ok { config := default_config, disk := FileState.malformed }
      ∧ default_config.selected_model = "openai/gpt-4o-mini".data
      ∧ default_config.provider_api_keys = []
      ∧ default_config.last_updated = none)
    ∧ load_config FileState.undecodable = .error "UnicodeDecodeError".data :=
  config_load_defaults .malformed (Or.inr (Or.inr rfl))

/-- Claim C8: when the configuration-file write fails (`writeOk = false`,
the source catches the `IOError`, logs and swallows it), every mutating
operation still updates the in-memory configuration, so the same-process
getters see the new value while the disk state is left unchanged
(divergence).  The operations are total, so they never raise. -/
theorem config_write_failure_swallowed (st : CMState) (name m p v now : Str) :
    (get_selected_model (set_selected_model st name now false) = name
      ∧ (set_selected_model st name now false).disk = st.disk)
    ∧ (get_api_key
          (set_api_key_for_provider st (extract_provider_from_model m) v now
            false) m = some v
        ∧ (set_api_key_for_provider st p v now false).disk = st.disk)
    ∧ (get_api_key
          (remove_api_key_for_provider st (extract_provider_from_model m) now
            false) m = none
        ∧ (remove_api_key_for_provider st p now false).disk = st.disk) := by
  refine ⟨⟨rfl, rfl⟩, ⟨?_, rfl⟩, ⟨?_, ?_⟩⟩
  · unfold get_api_key config_get_api_key
    rw [set_api_key_keys]
    exact dictGet_set_self _ _ _
  · unfold get_api_key config_get_api_key remove_api_key_for_provider
    by_cases h : dictHasKey st.config.provider_api_keys
        (extract_provider_from_model m) = true
    · rw [if_pos h, save_config_keys]
      show dictGet (dictDel _ _) _ = none
      exact dictGet_del_self _ _
    · rw [if_neg h]
      exact dictGet_none_of_not_hasKey h
  · unfold remove_api_key_for_provider
    by_cases h : dictHasKey st.config.provider_api_keys p = true
    · rw [if_pos h]
      rfl
    · rw [if_neg h]

theorem mem_insert_by_level {f g : Finding} {l : List Finding}
    (h : g ∈ insert_by_level f l) : g = f ∨ g ∈ l := by
  induction l with
  | nil => simpa [insert_by_level] using h
  | cons p l ih =>
    unfold insert_by_level at h
    by_cases hc : level_priority p.level < level_priority f.level
    · rw [if_pos hc] at h
      rcases List.mem_cons.mp h with h | h
      · exact Or.inr (h ▸ List.mem_cons_self p l)
      · rcases ih h with h | h
        · exact Or.inl h
        · exact Or.inr (List.mem_cons_of_mem p h)
    · rw [if_neg hc] at h
      rcases List.mem_cons.mp h with h | h
      · exact Or.inl h
      · exact Or.inr h

theorem pairwise_insert_by_level {f : Finding} {l : List Finding}
    (h : l.Pairwise (fun a b => level_priority a.level ≤ level_priority b.level)) :
    (insert_by_level f l).Pairwise
      (fun a b => level_priority a.level ≤ level_priority b.level) := by
  induction l with
  | nil => simp [insert_by_level]
  | cons p l ih =>
    rcases List.pairwise_cons.mp h with ⟨hp, hl⟩
    unfold insert_by_level
    by_cases hc : level_priority p.level < level_priority f.level
    · rw [if_pos hc]
      refine List.pairwise_cons.mpr ⟨?_, ih hl⟩
      intro g hg
      rcases mem_insert_by_level hg with h | h
      · exact h ▸ Nat.le_of_lt hc
      · exact hp g h
    · rw [if_neg hc]
      refine List.pairwise_cons.mpr ⟨?_, h⟩
      intro g hg
      rcases List.mem_cons.mp hg with h | h
      · exact h ▸ Nat.le_of_not_lt hc
      · exact Nat.le_trans (Nat.le_of_not_lt hc) (hp g h)

theorem sort_findings_pairwise (l : List Finding) :
    (sort_findings l).Pairwise
      (fun a b => level_priority a.level ≤ level_priority b.level) := by
  induction l with
  | nil => simp [sort_findings]
  | cons f l ih => exact pairwise_insert_by_level ih

theorem filter_insert_by_level (f : Finding) (l : List Finding) (lev : Str) :
    (insert_by_level f l).filter (fun g => g.level = lev) =
      if f.level = lev then f :: l.filter (fun g => g.level = lev)
      else l.filter (fun g => g.level = lev) := by
  induction l with
  | nil =>
    by_cases hf : f.level = lev
    · simp [insert_by_level, hf]
    · simp [insert_by_level, hf]
  | cons p l ih =>
    unfold insert_by_level
    by_cases hc : level_priority p.level < level_priority f.level
    · rw [if_pos hc]
      have hp : ¬ p.level = lev ∨ ¬ f.level = lev ∨ p.level = lev := by
        tauto
      by_cases hpl : p.level = lev
      · have hfl : ¬ f.level = lev := by
          intro hfl
          rw [hpl] at hc
          rw [hfl] at hc
          exact Nat.lt_irrefl _ hc
        rw [List.filter_cons_of_pos (by simpa using hpl), ih,
          if_neg hfl, if_neg hfl, List.filter_cons_of_pos (by simpa using hpl)]
      · rw [List.filter_cons_of_neg (by simpa using hpl), ih,
          List.filter_cons_of_neg (by simpa using hpl)]
    · rw [if_neg hc]
      by_cases hf : f.level = lev
      · rw [if_pos hf, List.filter_cons_of_pos (by simpa using hf)]
      · rw [if_neg hf, List.filter_cons_of_neg (by simpa using hf)]

theorem sort_findings_stable (l : List Finding) (lev : Str) :
    (sort_findings l).filter (fun g => g.level = lev) =
      l.filter (fun g => g.level = lev) := by
  induction l with
  | nil => rfl
  | cons f l ih =>
    show (insert_by_level f (sort_findings l)).filter _ = _
    rw [filter_insert_by_level]
    by_cases hf : f.level = lev
    · rw [if_pos hf, ih, List.filter_cons_of_pos (by simpa using hf)]
    · rw [if_neg hf, ih, List.filter_cons_of_neg (by simpa using hf)]

/-- Claim C6: the display sort orders findings by the fixed severity
priority Fatal < Major < Minor < Best Practice < Nice To Have
(non-decreasing `level_priority` along the output), preserves the
relative order of findings of equal severity (the subsequence at each
level is unchanged), and on the concrete input with levels
[Minor, Fatal, Nice To Have, Major] produces
[Fatal, Major, Minor, Nice To Have]. -/
theorem sort_findings_by_severity :
    (∀ l : List Finding,
      (sort_findings l).Pairwise
        (fun a b => level_priority a.level ≤ level_priority b.level))
    ∧ (∀ (l : List Finding) (lev : Str),
        (sort_findings l).filter (fun g => g.level = lev) =
          l.filter (fun g => g.level = lev))
    ∧ sort_findings [finding_minor, finding_fatal, finding_nth, finding_major]
        = [finding_fatal, finding_major, finding_minor, finding_nth] :=
  ⟨sort_findings_pairwise, sort_findings_stable, by decide⟩

/-- Counterexample to claim C9 as stated: the response with level
"Catastrophic" — not one of the five enumerated values — is accepted by
schema validation and yields a `Finding`, instead of being rejected. -/
theorem finding_level_not_rejected :
    validate_finding bogus_level_obj =
      some { id := 1, level := "Catastrophic".data, description := "d".data
           , recommendation := "r".data, reference := "U1".data }
    ∧ "Catastrophic".data ∉ FindingLevel.ALL_LEVELS
    ∧ validate_findings (.dict [("findings".data, .list [bogus_level_obj])])
        = some [{ id := 1, level := "Catastrophic".data
                , description := "d".data, recommendation := "r".data
                , reference := "U1".data }] :=
  ⟨rfl, by decide, rfl⟩

/-- Claim C9 as amended: `Finding.level` is declared as a plain string,
so schema validation accepts any string level (the five enumerated names
are only advisory description text); a well-typed finding object with an
arbitrary level string always validates to a `Finding` carrying that
string. -/
theorem finding_level_any_string (i : Int) (lv d r ref : Str) :
    validate_finding
      (.dict [ ("id".data, .int i), ("level".data, .str lv)
             , ("description".data, .str d)
             , ("recommendation".data, .str r)
             , ("reference".data, .str ref) ]) =
      some { id := i, level := lv, description := d, recommendation := r
           , reference := ref } := rfl

theorem level_priority_unknown (lev : Str)
    (h : lev ∉ FindingLevel.ALL_LEVELS) : level_priority lev = 99 := by
  have h1 : ¬ lev = FindingLevel.FATAL := fun he =>
    h (he ▸ (by decide : FindingLevel.FATAL ∈ FindingLevel.ALL_LEVELS))
  have h2 : ¬ lev = FindingLevel.MAJOR := fun he =>
    h (he ▸ (by decide : FindingLevel.MAJOR ∈ FindingLevel.ALL_LEVELS))
  have h3 : ¬ lev = FindingLevel.MINOR := fun he =>
    h (he ▸ (by decide : FindingLevel.MINOR ∈ FindingLevel.ALL_LEVELS))
  have h4 : ¬ lev = FindingLevel.BEST_PRACTICE := fun he =>
    h (he ▸ (by decide : FindingLevel.BEST_PRACTICE ∈ FindingLevel.ALL_LEVELS))
  have h5 : ¬ lev = FindingLevel.NICE_TO_HAVE := fun he =>
    h (he ▸ (by decide : FindingLevel.NICE_TO_HAVE ∈ FindingLevel.ALL_LEVELS))
  unfold level_priority
  rw [if_neg h1, if_neg h2, if_neg h3, if_neg h4, if_neg h5]

theorem level_priority_known_le (lev : Str)
    (h : lev ∈ FindingLevel.ALL_LEVELS) : level_priority lev ≤ 4 := by
  have h' : lev = FindingLevel.FATAL ∨ lev = FindingLevel.MAJOR ∨
      lev = FindingLevel.MINOR ∨ lev = FindingLevel.BEST_PRACTICE ∨
      lev = FindingLevel.NICE_TO_HAVE := by
    simpa [FindingLevel.ALL_LEVELS] using h
  rcases h' with h' | h' | h' | h' | h' <;> subst h' <;> decide

theorem known_of_priority_le (lev : Str) (h : level_priority lev ≤ 4) :
    lev ∈ FindingLevel.ALL_LEVELS := by
  by_contra hn
  rw [level_priority_unknown lev hn] at h
  omega

theorem indicator_sum (lev : Str) :
    ((if lev = FindingLevel.FATAL then 1 else 0)
      + (if lev = FindingLevel.MAJOR then 1 else 0)
      + (if lev = FindingLevel.MINOR then 1 else 0)
      + (if lev = FindingLevel.BEST_PRACTICE then 1 else 0)
      + (if lev = FindingLevel.NICE_TO_HAVE then 1 else 0) : Nat)
      = if lev ∈ FindingLevel.ALL_LEVELS then 1 else 0 := by
  by_cases h1 : lev = FindingLevel.FATAL
  · subst h1; decide
  by_cases h2 : lev = FindingLevel.MAJOR
  · subst h2; decide
  by_cases h3 : lev = FindingLevel.MINOR
  · subst h3; decide
  by_cases h4 : lev = FindingLevel.BEST_PRACTICE
  · subst h4; decide
  by_cases h5 : lev = FindingLevel.NICE_TO_HAVE
  · subst h5; decide
  have hmem : ¬ lev ∈ FindingLevel.ALL_LEVELS := by
    intro hm
    rcases (by simpa [FindingLevel.ALL_LEVELS] using hm :
        lev = FindingLevel.FATAL ∨ lev = FindingLevel.MAJOR ∨
        lev = FindingLevel.MINOR ∨ lev = FindingLevel.BEST_PRACTICE ∨
        lev = FindingLevel.NICE_TO_HAVE) with h | h | h | h | h
    exacts [h1 h, h2 h, h3 h, h4 h, h5 h]
  rw [if_neg h1, if_neg h2, if_neg h3, if_neg h4, if_neg h5, if_neg hmem]

theorem sum_counts (l : List Finding) :
    count_level l FindingLevel.FATAL + count_level l FindingLevel.MAJOR
      + count_level l FindingLevel.MINOR
      + count_level l FindingLevel.BEST_PRACTICE
      + count_level l FindingLevel.NICE_TO_HAVE
      = (l.filter (fun f => f.level ∈ FindingLevel.ALL_LEVELS)).length := by
  induction l with
  | nil => rfl
  | cons f l ih =>
    unfold count_level at ih ⊢
    simp only [List.countP_cons, decide_eq_true_eq]
    have hI := indicator_sum f.level
    by_cases hmem : f.level ∈ FindingLevel.ALL_LEVELS
    · rw [List.filter_cons_of_pos (by simpa using hmem), List.length_cons]
      rw [if_pos hmem] at hI
      omega
    · rw [List.filter_cons_of_neg (by simpa using hmem)]
      rw [if_neg hmem] at hI
      omega

/-- Claim C10: a finding whose level string is unknown gets the default
priority 99 and is placed after every finding with a known level in the
display sort; in the comparison-summary row it is excluded from all five
per-level count columns but still counted in Total_Findings, so
Total_Findings can exceed the sum of the five count columns (shown
concretely for a result with one known-level and one unknown-level
finding). -/
theorem unknown_level_handling :
    (∀ lev : Str, lev ∉ FindingLevel.ALL_LEVELS → level_priority lev = 99)
    ∧ (∀ l : List Finding,
        (sort_findings l).Pairwise
          (fun a b => a.level ∈ FindingLevel.ALL_LEVELS
            ∨ b.level ∉ FindingLevel.ALL_LEVELS))
    ∧ (∀ (errors : List (Str × Str)) (m : Str) (r : AnalysisResult),
        (summary_row errors m (some r)).total_findings = r.findings.length
        ∧ (summary_row errors m (some r)).fatal
            + (summary_row errors m (some r)).major
            + (summary_row errors m (some r)).minor
            + (summary_row errors m (some r)).best_practice
            + (summary_row errors m (some r)).nice_to_have
            = (r.findings.filter
                (fun f => f.level ∈ FindingLevel.ALL_LEVELS)).length)
    ∧ ((summary_row [] "m".data
          (some { findings := [finding_fatal, finding_bogus]
                , token_usage := {} })).total_findings = 2
        ∧ (summary_row [] "m".data
            (some { findings := [finding_fatal, finding_bogus]
                  , token_usage := {} })).fatal
            + (summary_row [] "m".data
                (some { findings := [finding_fatal, finding_bogus]
                      , token_usage := {} })).major
            + (summary_row [] "m".data
                (some { findings := [finding_fatal, finding_bogus]
                      , token_usage := {} })).minor
            + (summary_row [] "m".data
                (some { findings := [finding_fatal, finding_bogus]
                      , token_usage := {} })).best_practice
            + (summary_row [] "m".data
                (some { findings := [finding_fatal, finding_bogus]
                      , token_usage := {} })).nice_to_have = 1) := by
  refine ⟨level_priority_unknown, ?_, ?_, by decide, by decide⟩
  · intro l
    refine (sort_findings_pairwise l).imp ?_
    intro a b hab
    by_cases hb : b.level ∈ FindingLevel.ALL_LEVELS
    · left
      exact known_of_priority_le a.level
        (Nat.le_trans hab (level_priority_known_le b.level hb))
    · right
      exact hb
  · intro errors m r
    exact ⟨rfl, sum_counts r.findings⟩

theorem unescape_cons_cons (c d : Char) (rest : Str) :
    unescape_quotes (c :: d :: rest) =
      if c = '"' ∧ d = '"' then '"' :: unescape_quotes rest
      else c :: unescape_quotes (d :: rest) := by
  rfl

theorem unescape_cons_of_ne (c : Char) (s : Str) (hc : ¬ c = '"') :
    unescape_quotes (c :: s) = c :: unescape_quotes s := by
  cases s with
  | nil => rfl
  | cons d rest =>
    rw [unescape_cons_cons, if_neg (fun h => hc h.1)]

theorem unescape_escape (s : Str) :
    unescape_quotes (escape_quotes s) = s := by
  induction s with
  | nil => rfl
  | cons c s ih =>
    unfold escape_quotes at ih ⊢
    rw [List.flatMap_cons]
    by_cases hc : c = '"'
    · subst hc
      rw [if_pos rfl]
      show unescape_quotes ('"' :: '"' :: _) = _
      rw [unescape_cons_cons, if_pos ⟨rfl, rfl⟩]
      exact congrArg (fun t => '"' :: t) ih
    · rw [if_neg hc]
      show unescape_quotes (c :: _) = _
      rw [unescape_cons_of_ne c _ hc]
      exact congrArg (fun t => c :: t) ih

theorem decode_encode_field (s : Str) : decode_field (encode_field s) = s := by
  unfold encode_field
  by_cases hq : needs_quoting s = true
  · rw [if_pos hq]
    show (if ('"' : Char) = '"' then
        unescape_quotes (escape_quotes s ++ ['"']).dropLast
      else '"' :: (escape_quotes s ++ ['"'])) = s
    rw [if_pos rfl]
    rw [List.dropLast_concat]
    exact unescape_escape s
  · rw [if_neg hq]
    cases s with
    | nil => rfl
    | cons c rest =>
      have hc : ¬ c = '"' := by
        intro h
        exact hq (by simp [needs_quoting, List.any_cons, h])
      show (if c = '"' then _ else c :: rest) = c :: rest
      rw [if_neg hc]

theorem char_digit_digit_char : ∀ d, d < 10 → char_digit (digit_char d) = d := by
  decide

theorem digit_char_is_digit : ∀ d, d < 10 → is_digit_char (digit_char d) = true := by
  decide

theorem is_digit_char_ne_dash (c : Char) (h : is_digit_char c = true) :
    ¬ c = '-' := by
  unfold is_digit_char at h
  rw [decide_eq_true_eq] at h
  intro hc
  subst hc
  simp at h

theorem nat_to_str_all_digits (n : Nat) :
    (nat_to_str n).all is_digit_char = true := by
  unfold nat_to_str
  by_cases h0 : n = 0
  · rw [if_pos h0]
    decide
  · rw [if_neg h0]
    rw [List.all_eq_true]
    intro c hc
    rw [List.mem_map] at hc
    obtain ⟨d, hd, rfl⟩ := hc
    exact digit_char_is_digit d
      (Nat.digits_lt_base (by norm_num) (List.mem_reverse.mp hd))

theorem nat_to_str_ne_nil (n : Nat) : nat_to_str n ≠ [] := by
  unfold nat_to_str
  by_cases h0 : n = 0
  · rw [if_pos h0]
    simp
  · rw [if_neg h0]
    simp [Nat.digits_ne_nil_iff_ne_zero.mpr h0]

theorem str_to_nat_nat_to_str (n : Nat) :
    str_to_nat (nat_to_str n) = some n := by
  unfold str_to_nat
  rw [if_pos ⟨nat_to_str_ne_nil n, nat_to_str_all_digits n⟩]
  unfold nat_to_str
  by_cases h0 : n = 0
  · subst h0
    rw [if_pos rfl]
    rfl
  · rw [if_neg h0]
    congr 1
    rw [List.map_map]
    have hmap : (Nat.digits 10 n).reverse.map (char_digit ∘ digit_char)
        = (Nat.digits 10 n).reverse.map id :=
      List.map_congr_left (fun d hd =>
        char_digit_digit_char d
          (Nat.digits_lt_base (by norm_num) (List.mem_reverse.mp hd)))
    rw [hmap, List.map_id, List.reverse_reverse]
    exact Nat.ofDigits_digits 10 n

theorem str_to_int_int_to_str (i : Int) :
    str_to_int (int_to_str i) = some i := by
  unfold int_to_str
  by_cases hneg : i < 0
  · rw [if_pos hneg]
    show (if ('-' : Char) = '-' then
        (str_to_nat (nat_to_str i.natAbs)).map (fun n => -(n : Int))
      else (str_to_nat ('-' :: nat_to_str i.natAbs)).map (fun n => (n : Int)))
        = some i
    rw [if_pos rfl, str_to_nat_nat_to_str]
    show some (-(i.natAbs : Int)) = some i
    congr 1
    omega
  · rw [if_neg hneg]
    cases hs : nat_to_str i.toNat with
    | nil => exact absurd hs (nat_to_str_ne_nil _)
    | cons c rest =>
      have hc : ¬ c = '-' := by
        apply is_digit_char_ne_dash
        have h1 := nat_to_str_all_digits i.toNat
        rw [hs, List.all_cons, Bool.and_eq_true] at h1
        exact h1.1
      show (if c = '-' then (str_to_nat rest).map (fun n => -(n : Int))
        else (str_to_nat (c :: rest)).map (fun n => (n : Int))) = some i
      rw [if_neg hc, ← hs, str_to_nat_nat_to_str]
      show some ((i.toNat : Int)) = some i
      congr 1
      omega

/-- Claim C7: writing any finding list to the per-model CSV (header row
`ID,Level,Description,Recommendation,Reference`, then one encoded row
per finding in input order) and re-reading the rows yields exactly the
original `(id, level, description, recommendation, reference)` tuples in
the same order. -/
theorem csv_round_trip (findings : List Finding) :
    read_csv (save_to_csv findings) =
      some (findings.map (fun f =>
        (f.id, f.level, f.description, f.recommendation, f.reference))) := by
  unfold read_csv save_to_csv
  rw [List.drop_one, List.tail_cons]
  induction findings with
  | nil => rfl
  | cons f l ih =>
    rw [List.map_cons, List.map_cons, List.mapM_cons]
    have hrow : read_finding_row
        [ encode_field (int_to_str f.id), encode_field f.level
        , encode_field f.description, encode_field f.recommendation
        , encode_field f.reference ] =
        some (f.id, f.level, f.description, f.recommendation, f.reference) := by
      show (str_to_int (decode_field (encode_field (int_to_str f.id)))).map
          (fun n => (n, decode_field (encode_field f.level),
            decode_field (encode_field f.description),
            decode_field (encode_field f.recommendation),
            decode_field (encode_field f.reference))) = _
      rw [decode_encode_field, decode_encode_field, decode_encode_field,
        decode_encode_field, decode_encode_field, str_to_int_int_to_str]
      rfl
    rw [hrow, ih]
    rfl

/-- Witness for C10 exercising the hypothesis of its first conjunct at a
concrete unknown level string. -/
theorem unknown_level_handling_witness :
    level_priority "Catastrophic".data = 99 :=
  unknown_level_handling.1 "Catastrophic".data (by decide)

theorem analyze_with_model_config (st : AnalyzerState)
    (llm : Str → Except Str AnalysisResult) (m : Str) :
    (analyze_with_model st llm m).1.config = st.config := by
  unfold analyze_with_model
  by_cases h : is_truthy_key (config_get_api_key st.config m) = false
  · rw [if_pos h]
  · rw [if_neg h]
    cases llm m <;> rfl

theorem analyze_with_model_errors_other (st : AnalyzerState)
    (llm : Str → Except Str AnalysisResult) (m k : Str) (hne : k ≠ m) :
    dictGet (analyze_with_model st llm m).1.errors k = dictGet st.errors k := by
  unfold analyze_with_model
  by_cases h : is_truthy_key (config_get_api_key st.config m) = false
  · rw [if_pos h]
    exact dictGet_set_other _ _ _ _ hne
  · rw [if_neg h]
    cases llm m with
    | ok r => rfl
    | error e => exact dictGet_set_other _ _ _ _ hne

theorem run_models_fst (llm : Str → Except Str AnalysisResult)
    (ms : List Str) : ∀ st : AnalyzerState,
    ((run_models llm st ms).2).map Prod.fst = ms := by
  induction ms with
  | nil => intro st; rfl
  | cons m ms ih =>
    intro st
    show ((m, (analyze_with_model st llm m).2)
        :: (run_models llm (analyze_with_model st llm m).1 ms).2).map Prod.fst
      = m :: ms
    rw [List.map_cons, ih]

theorem run_models_errors_other (llm : Str → Except Str AnalysisResult)
    (ms : List Str) : ∀ (st : AnalyzerState) (k : Str), k ∉ ms →
    dictGet (run_models llm st ms).1.errors k = dictGet st.errors k := by
  induction ms with
  | nil => intro st k _; rfl
  | cons m ms ih =>
    intro st k hk
    have hkm : k ≠ m := fun h => hk (h ▸ List.mem_cons_self m ms)
    have hkms : k ∉ ms := fun h => hk (List.mem_cons_of_mem m h)
    show dictGet (run_models llm (analyze_with_model st llm m).1 ms).1.errors k
      = dictGet st.errors k
    rw [ih _ k hkms, analyze_with_model_errors_other st llm m k hkm]

theorem run_models_spec (llm : Str → Except Str AnalysisResult)
    (ms : List Str) : ∀ st : AnalyzerState,
    (∀ m ∈ ms, is_truthy_key (config_get_api_key st.config m) = true) →
    ms.Nodup →
    ∀ p ∈ (run_models llm st ms).2,
      (∀ r, llm p.1 = .ok r → p.2 = some r)
      ∧ (∀ e, llm p.1 = .error e →
          p.2 = none
          ∧ dictGet (run_models llm st ms).1.errors p.1 = some e) := by
  induction ms with
  | nil => intro st _ _ p hp; cases hp
  | cons m ms ih =>
    intro st hkeys hnd p hp
    have hkm : is_truthy_key (config_get_api_key st.config m) = true :=
      hkeys m (List.mem_cons_self m ms)
    have hkm' : ¬ is_truthy_key (config_get_api_key st.config m) = false := by
      rw [hkm]; simp
    have hmnotin : m ∉ ms := (List.nodup_cons.mp hnd).1
    have hndms : ms.Nodup := (List.nodup_cons.mp hnd).2
    rcases List.mem_cons.mp hp with hp | hp
    · -- the head entry for model m
      subst hp
      constructor
      · intro r hr
        show (analyze_with_model st llm m).2 = some r
        unfold analyze_with_model
        rw [if_neg hkm', hr]
      · intro e he
        have h2 : (analyze_with_model st llm m).1 =
            { st with errors := dictSet st.errors m e } := by
          unfold analyze_with_model
          rw [if_neg hkm', he]
        refine ⟨?_, ?_⟩
        · show (analyze_with_model st llm m).2 = none
          unfold analyze_with_model
          rw [if_neg hkm', he]
        · show dictGet
            (run_models llm (analyze_with_model st llm m).1 ms).1.errors m
            = some e
          rw [run_models_errors_other llm ms _ m hmnotin, h2]
          exact dictGet_set_self _ _ _
    · -- an entry from the tail
      have hcfg : (analyze_with_model st llm m).1.config = st.config :=
        analyze_with_model_config st llm m
      have hkeys' : ∀ m' ∈ ms,
          is_truthy_key
            (config_get_api_key (analyze_with_model st llm m).1.config m')
            = true := by
        intro m' hm'
        rw [hcfg]
        exact hkeys m' (List.mem_cons_of_mem m hm')
      exact ih (analyze_with_model st llm m).1 hkeys' hndms p hp

theorem avail_keys_truthy (st : AnalyzerState) (m : Str)
    (hm : m ∈ get_available_models_with_keys st) :
    is_truthy_key (config_get_api_key st.config m) = true := by
  unfold get_available_models_with_keys at hm
  have h := (List.mem_filter.mp hm).2
  rw [Bool.and_eq_true] at h
  exact h.1

theorem avail_nodup (st : AnalyzerState) :
    (get_available_models_with_keys st).Nodup :=
  List.Nodup.filter _ (by decide : AVAILABLE_MODELS.Nodup)

theorem summary_row_model (errors : List (Str × Str)) (m : Str)
    (o : Option AnalysisResult) : (summary_row errors m o).model = m := by
  cases o <;> rfl

/-- Claim C2: when the LLM call (construction of `LLMOperations` or the
analyze call, merged into the oracle) raises an exception for a model
with a (truthy) stored key, `analyze_with_model` catches it, records the
error text for that model id in `self.errors`, and returns `none`; and
the `run_analysis` loop visits every model of its list regardless, so
one model's failure never aborts the batch. -/
theorem analyze_with_model_isolates
    (st : AnalyzerState) (llm : Str → Except Str AnalysisResult) (m e : Str)
    (hk : is_truthy_key (config_get_api_key st.config m) = true)
    (he : llm m = .error e) :
    (analyze_with_model st llm m).2 = none
    ∧ dictGet (analyze_with_model st llm m).1.errors m = some e
    ∧ ∀ (st2 : AnalyzerState) (ms : List Str),
        ((run_models llm st2 ms).2).map Prod.fst = ms := by
  have hk' : ¬ is_truthy_key (config_get_api_key st.config m) = false := by
    rw [hk]; simp
  refine ⟨?_, ?_, fun st2 ms => run_models_fst llm ms st2⟩
  · unfold analyze_with_model
    rw [if_neg hk', he]
  · have h2 : (analyze_with_model st llm m).1 =
        { st with errors := dictSet st.errors m e } := by
      unfold analyze_with_model
      rw [if_neg hk', he]
    rw [h2]
    exact dictGet_set_self _ _ _

/-- Witness for C2 at a concrete failing model. -/
theorem analyze_with_model_isolates_witness :
    (analyze_with_model c2_state c2_llm "openai/gpt-5.2".data).2 = none
    ∧ dictGet (analyze_with_model c2_state c2_llm "openai/gpt-5.2".data).1.errors
        "openai/gpt-5.2".data = some "boom".data :=
  ⟨(analyze_with_model_isolates c2_state c2_llm "openai/gpt-5.2".data
      "boom".data (by decide) rfl).1,
   (analyze_with_model_isolates c2_state c2_llm "openai/gpt-5.2".data
      "boom".data (by decide) rfl).2.1⟩

/-- Counterexample to claim C1 as stated: of the two candidate models,
exactly one ("openai/gpt-5.2") has no stored API key; yet the summary
written by the run contains no ERROR row at all — the keyless candidate
is filtered out by `get_available_models_with_keys` before the loop and
receives no row, and the single row is the SUCCESS row of the keyed
model. -/
theorem run_missing_key_has_no_summary_row :
    ((cx_state.selected_models.getD []).filter
        (fun m => !is_truthy_key (config_get_api_key cx_state.config m))).length
      = 1
    ∧ (cx_state.selected_models.getD []).length = 2
    ∧ (save_summary_csv (run_analysis cx_state cx_llm).1.errors
          (run_analysis cx_state cx_llm).2).map
        (fun r => (r.model, r.status))
      = [("google/gemini-2.5-flash".data, "SUCCESS".data)]
    ∧ (save_summary_csv (run_analysis cx_state cx_llm).1.errors
          (run_analysis cx_state cx_llm).2).filter
        (fun r => r.status = "ERROR".data) = [] := by
  refine ⟨by decide, by decide, by decide, by decide⟩

/-- Claim C1 as amended: a candidate model without a stored (truthy) API
key is excluded from the run by `get_available_models_with_keys` and
receives no comparison-summary row at all (the missing-key ERROR path of
`analyze_with_model` is unreachable from `run_analysis`); the summary
written by the run has exactly one row per available model, in order,
tagged SUCCESS with the finding count when the call succeeded and ERROR
with the recorded exception text when it raised; one model's failure
does not prevent the others from running. -/
theorem run_analysis_summary_rows
    (st : AnalyzerState) (llm : Str → Except Str AnalysisResult) :
    (get_available_models_with_keys st ≠ [] →
      run_analysis st llm
        = run_models llm st (get_available_models_with_keys st))
    ∧ ((save_summary_csv
          (run_models llm st (get_available_models_with_keys st)).1.errors
          (run_models llm st (get_available_models_with_keys st)).2).map
        SummaryRow.model = get_available_models_with_keys st)
    ∧ (∀ m, m ∉ get_available_models_with_keys st →
        ∀ row ∈ save_summary_csv
            (run_models llm st (get_available_models_with_keys st)).1.errors
            (run_models llm st (get_available_models_with_keys st)).2,
          row.model ≠ m)
    ∧ (∀ row ∈ save_summary_csv
          (run_models llm st (get_available_models_with_keys st)).1.errors
          (run_models llm st (get_available_models_with_keys st)).2,
        (∀ r, llm row.model = .ok r →
          row.status = "SUCCESS".data
          ∧ row.total_findings = r.findings.length)
        ∧ (∀ e, llm row.model = .error e →
          row.status = "ERROR".data ∧ row.error = e)) := by
  have hmapmodel : (save_summary_csv
      (run_models llm st (get_available_models_with_keys st)).1.errors
      (run_models llm st (get_available_models_with_keys st)).2).map
        SummaryRow.model = get_available_models_with_keys st := by
    unfold save_summary_csv
    rw [List.map_map]
    have hcong : ((run_models llm st (get_available_models_with_keys st)).2).map
        (SummaryRow.model ∘ fun p => summary_row
          (run_models llm st (get_available_models_with_keys st)).1.errors
          p.1 p.2)
        = ((run_models llm st (get_available_models_with_keys st)).2).map
          Prod.fst :=
      List.map_congr_left (fun p _ => summary_row_model _ p.1 p.2)
    rw [hcong, run_models_fst]
  refine ⟨?_, hmapmodel, ?_, ?_⟩
  · intro hne
    show (if (get_available_models_with_keys st).isEmpty = true then (st, [])
      else run_models llm st (get_available_models_with_keys st))
      = run_models llm st (get_available_models_with_keys st)
    rw [if_neg (fun h => hne (List.isEmpty_iff.mp h))]
  · intro m hm row hrow hrowm
    exact hm (hrowm ▸ hmapmodel ▸ List.mem_map_of_mem SummaryRow.model hrow)
  · intro row hrow
    obtain ⟨p, hp, hrow⟩ := List.mem_map.mp hrow
    have hspec := run_models_spec llm (get_available_models_with_keys st) st
      (fun m hm => avail_keys_truthy st m hm) (avail_nodup st) p hp
    subst hrow
    constructor
    · intro r hr
      rw [summary_row_model] at hr
      rw [hspec.1 r hr]
      exact ⟨rfl, rfl⟩
    · intro e he
      rw [summary_row_model] at he
      have h2 := hspec.2 e he
      rw [h2.1]
      refine ⟨rfl, ?_⟩
      show (dictGet (run_models llm st
        (get_available_models_with_keys st)).1.errors p.1).getD
          "Unknown error".data = e
      rw [h2.2]
      rfl

/-- Witness for C1's amended theorem: at the concrete counterexample
state the single summary row belongs to the keyed model and is SUCCESS,
obtained by applying the theorem and discharging its hypotheses. -/
theorem run_analysis_summary_rows_witness :
    run_analysis cx_state cx_llm
      = run_models cx_llm cx_state (get_available_models_with_keys cx_state)
    ∧ (summary_row
        (run_models cx_llm cx_state
          (get_available_models_with_keys cx_state)).1.errors
        "google/gemini-2.5-flash".data
        (some { findings := [], token_usage := {} })).status
      = "SUCCESS".data :=
  ⟨(run_analysis_summary_rows cx_state cx_llm).1 (by decide),
   (((run_analysis_summary_rows cx_state cx_llm).2.2.2
      (summary_row
        (run_models cx_llm cx_state
          (get_available_models_with_keys cx_state)).1.errors
        "google/gemini-2.5-flash".data
        (some { findings := [], token_usage := {} }))
      (by decide)).1
    { findings := [], token_usage := {} } rfl).1⟩

